import Mathlib

/-!
Verification of the donorwall repository (Flask donor-wall scraper).

The development shallowly embeds the pipeline code of `src/donor/routes.py`,
`src/admin/routes.py`, `src/db.py` and `src/main.py`:

* pure Python string manipulation is translated to Lean functions on
  `String`/`List Char`;
* Python floats are modelled as exact rationals (`ℚ`); the builtin
  `float(str)` conversion is modelled by `pyFloat?`, restricted to plain
  decimal literals over ASCII digits (sign, digits, at most one decimal
  point; exponents and the special values inf/nan are outside the scope of
  every claim considered here, and Python `str.isdigit` is modelled as the
  ASCII digit test);
* a parsed BeautifulSoup document is modelled abstractly by `Doc`: the list
  of nodes (in document order) returned by each CSS selector, the rows of
  the `table#all-table` structure, the `id` attributes present in the
  document and the anchor `href` values;
* network and filesystem effects are modelled by explicit parameters
  (`Option Doc` for a fetch that may raise, `FileState` for a candidate
  file), and the sqlite transaction of `get_db` (commit on normal exit,
  rollback on exception) by an `Except` computation whose failure leaves
  the previous database value in place.
-/

namespace DonorWall

/-! ## Python `str.strip` model -/

/-- Model of Python `str.strip()` on a character list: drop leading and
trailing whitespace. -/
def pstripList (l : List Char) : List Char :=
  (l.dropWhile Char.isWhitespace).rdropWhile Char.isWhitespace

/-- Model of Python `str.strip()` (also of BeautifulSoup `strip=True`
trimming at the outermost level). -/
def pstrip (s : String) : String :=
  ⟨pstripList s.data⟩

theorem mem_of_mem_dropWhile {p : Char → Bool} {c : Char} :
    ∀ {l : List Char}, c ∈ l.dropWhile p → c ∈ l := by
  intro l h
  induction l with
  | nil => simp [List.dropWhile] at h
  | cons a t ih =>
    rw [List.dropWhile_cons] at h
    split at h
    · exact List.mem_cons_of_mem a (ih h)
    · exact h

theorem mem_of_mem_pstripList {c : Char} {l : List Char}
    (h : c ∈ pstripList l) : c ∈ l := by
  unfold pstripList List.rdropWhile at h
  rw [List.mem_reverse] at h
  have h2 := mem_of_mem_dropWhile h
  rw [List.mem_reverse] at h2
  exact mem_of_mem_dropWhile h2

theorem pstripList_idem (l : List Char) :
    pstripList (pstripList l) = pstripList l := by
  unfold pstripList
  set m := l.dropWhile Char.isWhitespace with hmdef
  have hm : m.dropWhile Char.isWhitespace = m := List.dropWhile_idempotent _ _
  have hfront : (m.rdropWhile Char.isWhitespace).dropWhile Char.isWhitespace
      = m.rdropWhile Char.isWhitespace := by
    cases hcase : m.rdropWhile Char.isWhitespace with
    | nil => simp
    | cons c t =>
      obtain ⟨u, hu⟩ := List.rdropWhile_prefix Char.isWhitespace m
      rw [hcase] at hu
      have hm2 : m = c :: (t ++ u) := by rw [← hu]; rfl
      have h0 : 0 < m.length := by rw [hm2]; simp
      have hcws : ¬ Char.isWhitespace c := by
        have hhead := List.dropWhile_eq_self_iff.mp hm h0
        have hg : m.get ⟨0, h0⟩ = c := by
          simp [hm2]
        rwa [hg] at hhead
      rw [List.dropWhile_cons, if_neg (by simpa using hcws)]
  rw [hfront, List.rdropWhile_idempotent]

theorem pstrip_idem (s : String) : pstrip (pstrip s) = pstrip s := by
  unfold pstrip
  exact congrArg String.mk (pstripList_idem s.data)

/-! ## Python `float(str)` model -/

/-- Numeric value of a digit list, most significant digit first. -/
def digitsVal (ds : List Char) : ℕ :=
  ds.foldl (fun a c => 10 * a + (c.toNat - 48)) 0

/-- Unsigned part of the Python decimal-literal grammar: digits with at most
one decimal point and at least one digit (so `"5"`, `"5."`, `".5"` parse,
while `""`, `"."` and anything containing other characters do not). -/
def pyUnsigned? (rest : List Char) : Option ℚ :=
  match rest.dropWhile Char.isDigit with
  | [] =>
    if rest.takeWhile Char.isDigit = [] then none
    else some (digitsVal (rest.takeWhile Char.isDigit) : ℚ)
  | c :: frac =>
    if c = '.' ∧ frac.all Char.isDigit ∧ (rest.takeWhile Char.isDigit ≠ [] ∨ frac ≠ []) then
      some ((digitsVal (rest.takeWhile Char.isDigit) : ℚ)
        + (digitsVal frac : ℚ) / (10 : ℚ) ^ frac.length)
    else none

/-- Signed decimal literal: an optional leading `+`/`-` before the unsigned
part. -/
def pyFloatCore? (cs : List Char) : Option ℚ :=
  match cs with
  | [] => none
  | c :: rest =>
    if c = '-' then (pyUnsigned? rest).map (fun v => -v)
    else if c = '+' then pyUnsigned? rest
    else pyUnsigned? (c :: rest)

/-- Model of the Python builtin `float(s)` on the decimal-literal fragment:
`float` itself strips surrounding whitespace, then parses the literal.
`none` models a raised `ValueError`. -/
def pyFloat? (s : String) : Option ℚ :=
  pyFloatCore? (pstripList s.data)

theorem pyUnsigned?_nonneg {rest : List Char} {v : ℚ}
    (h : pyUnsigned? rest = some v) : 0 ≤ v := by
  unfold pyUnsigned? at h
  split at h
  · split at h
    · exact absurd h (by simp)
    · rw [Option.some.injEq] at h
      rw [← h]
      positivity
  · split at h
    · rw [Option.some.injEq] at h
      rw [← h]
      positivity
    · exact absurd h (by simp)

theorem pyFloatCore?_nonneg {cs : List Char} {v : ℚ}
    (hneg : '-' ∉ cs) (h : pyFloatCore? cs = some v) : 0 ≤ v := by
  cases cs with
  | nil => simp [pyFloatCore?] at h
  | cons c rest =>
    have hc : ¬ c = '-' := fun he => hneg (he ▸ List.mem_cons_self c rest)
    rw [pyFloatCore?, if_neg hc] at h
    split at h
    · exact pyUnsigned?_nonneg h
    · exact pyUnsigned?_nonneg h

/-! ## The two amount normalizers -/

/-- Character filter of `parse_amount_to_number` (src/donor/routes.py:27):
keep only digits and the period. -/
def cleanAmount (s : String) : String :=
  ⟨s.data.filter (fun ch => ch.isDigit || ch = '.')⟩

/-- Embedding of `parse_amount_to_number` (src/donor/routes.py:19-31): `None`
or the empty string give `0`; otherwise every character that is not a digit
or a period is removed and the remainder is passed to `float`, any parse
failure yielding `0`. -/
def parse_amount_to_number (amount : Option String) : ℚ :=
  match amount with
  | none => 0
  | some s =>
    if s = "" then 0
    else
      match pyFloat? (cleanAmount s) with
      | some v => v
      | none => 0

/-- Embedding of `_parse_amount` (src/admin/routes.py:22-31): `None` gives
`0.0`; otherwise the string is stripped, the literals `""` and `"None"`
give `0.0`, and anything else is passed to `float`, any parse failure
yielding `0.0`. -/
def _parse_amount (raw : Option String) : ℚ :=
  match raw with
  | none => 0
  | some r =>
    let text := pstrip r
    if text = "" ∨ text = "None" then 0
    else
      match pyFloat? text with
      | some v => v
      | none => 0

theorem cleanAmount_no_minus (s : String) : '-' ∉ (cleanAmount s).data := by
  unfold cleanAmount
  intro h
  rcases List.mem_filter.mp h with ⟨-, hp⟩
  simp [Char.isDigit] at hp

theorem parse_amount_to_number_nonneg (a : Option String) :
    0 ≤ parse_amount_to_number a := by
  cases a with
  | none => simp [parse_amount_to_number]
  | some s =>
    simp only [parse_amount_to_number]
    split
    · simp
    · cases hp : pyFloat? (cleanAmount s) with
      | none => simp
      | some v =>
        have hnm : '-' ∉ pstripList (cleanAmount s).data := fun hmem =>
          cleanAmount_no_minus s (mem_of_mem_pstripList hmem)
        exact pyFloatCore?_nonneg hnm hp

/-! ## Document model and the HTML name extractor -/

/-- A node matched by a CSS selector: its position in document order and the
text returned by `get_text(strip=True)`. -/
structure Node where
  pos : Nat
  text : String
deriving DecidableEq

/-- First `td` cell of a `tr.leaderboard-row`: the text of its first
`div.col-sm-6` (when present) and the full cell text, both as returned by
`get_text(" ", strip=True)`. -/
structure Td where
  colSm6 : Option String
  fullText : String
deriving DecidableEq

/-- A `table#all-table tr.leaderboard-row` row: its first `td`, if any. -/
structure Row where
  td? : Option Td
deriving DecidableEq

/-- Abstract parsed document: for each CSS selector the matched nodes in
document order, the `table#all-table tr.leaderboard-row` rows in document
order, the `id` attributes of elements in document order, and the `href`
values of anchors in document order. -/
structure Doc where
  select : String → List Node
  rows : List Row
  ids : List String
  hrefs : List String

/-- The ordered selector list of `_extract_donor_names`
(src/donor/routes.py:66-75). -/
def selectors : List String :=
  ["#recent_donors_block .profile_block.small .profile_block-content span",
   ".donor-listing .text-xl",
   ".donor-listing .donor-name",
   ".donor .name",
   ".donor-name",
   ".donor_name",
   ".campaign-donor .name",
   ".profile_block-content span"]

/-- The local `_add_name` closure of `_extract_donor_names`
(src/donor/routes.py:79-83): strip the raw text and append it unless it is
empty or already present.  The `seen` set always holds exactly the names
accumulated so far, so it is represented by the accumulator itself. -/
def addName (acc : List String) (raw : String) : List String :=
  if pstrip raw ≠ "" ∧ pstrip raw ∉ acc then acc ++ [pstrip raw] else acc

/-- Embedding of `_extract_donor_names` (src/donor/routes.py:62-101): run
every selector in order, feeding each matched node text through `_add_name`,
then scan the `table#all-table` rows, preferring the first `div.col-sm-6`
of the first cell and falling back to the full cell text. -/
def _extract_donor_names (d : Doc) : List String :=
  let names := selectors.foldl
    (fun acc sel => (d.select sel).foldl (fun a node => addName a node.text) acc) []
  d.rows.foldl
    (fun acc row =>
      match row.td? with
      | none => acc
      | some td =>
        match td.colSm6 with
        | some t => addName acc t
        | none => addName acc td.fullText)
    names

/-- Raw text a row contributes to the scan, if any (rows without a `td` are
skipped). -/
def rowText? (r : Row) : Option String :=
  r.td?.map (fun td => td.colSm6.getD td.fullText)

/-- All raw texts visited by the extractor, in scan order: selectors in
their listed order, each selector's matches in document order, then the
table rows. -/
def scanTexts (d : Doc) : List String :=
  (selectors.map (fun sel => (d.select sel).map Node.text)).flatten
    ++ d.rows.filterMap rowText?

/-- Strip-and-dedup fold shared by the extractor paths. -/
def dedupeStrip (l : List String) : List String :=
  l.foldl addName []

theorem foldl_addName_append (l₁ l₂ : List String) (acc : List String) :
    (l₁ ++ l₂).foldl addName acc = l₂.foldl addName (l₁.foldl addName acc) :=
  List.foldl_append ..

theorem selector_fold_eq (d : Doc) :
    ∀ (sels : List String) (acc : List String),
      sels.foldl (fun acc sel => (d.select sel).foldl (fun a node => addName a node.text) acc) acc
        = ((sels.map (fun sel => (d.select sel).map Node.text)).flatten).foldl addName acc := by
  intro sels
  induction sels with
  | nil => intro acc; rfl
  | cons s t ih =>
    intro acc
    rw [List.foldl_cons, List.map_cons, List.flatten_cons, foldl_addName_append, ih]
    congr 1
    rw [List.foldl_map]

theorem row_fold_eq :
    ∀ (rows : List Row) (acc : List String),
      rows.foldl
        (fun acc row =>
          match row.td? with
          | none => acc
          | some td =>
            match td.colSm6 with
            | some t => addName acc t
            | none => addName acc td.fullText)
        acc
        = (rows.filterMap rowText?).foldl addName acc := by
  intro rows
  induction rows with
  | nil => intro acc; rfl
  | cons r t ih =>
    intro acc
    cases htd : r.td? with
    | none => simp [List.foldl_cons, htd, List.filterMap_cons, rowText?, ih]
    | some td =>
      cases hc : td.colSm6 with
      | none => simp [List.foldl_cons, htd, hc, List.filterMap_cons, rowText?, ih]
      | some tx => simp [List.foldl_cons, htd, hc, List.filterMap_cons, rowText?, ih]

theorem extract_eq_scan (d : Doc) :
    _extract_donor_names d = dedupeStrip (scanTexts d) := by
  unfold _extract_donor_names dedupeStrip scanTexts
  rw [selector_fold_eq d, row_fold_eq, foldl_addName_append]

theorem addName_nodup {acc : List String} (h : acc.Nodup) (raw : String) :
    (addName acc raw).Nodup := by
  unfold addName
  split
  · next hcond =>
    rw [List.nodup_append]
    exact ⟨h, List.nodup_singleton _,
      fun x hx hmem => hcond.2 (by rwa [List.mem_singleton.mp hmem] at hx)⟩
  · exact h

theorem foldl_addName_nodup :
    ∀ (l : List String) (acc : List String), acc.Nodup → (l.foldl addName acc).Nodup := by
  intro l
  induction l with
  | nil => intro acc h; exact h
  | cons r t ih => intro acc h; exact ih _ (addName_nodup h r)

theorem mem_addName {acc : List String} {raw x : String}
    (h : x ∈ addName acc raw) : x ∈ acc ∨ (x = pstrip raw ∧ x ≠ "") := by
  unfold addName at h
  split at h
  · next hcond =>
    rcases List.mem_append.mp h with hl | hr
    · exact Or.inl hl
    · have hx := List.mem_singleton.mp hr
      exact Or.inr ⟨hx, by rw [hx]; exact hcond.1⟩
  · exact Or.inl h

theorem mem_foldl_addName :
    ∀ (l : List String) (acc : List String) (x : String),
      x ∈ l.foldl addName acc → x ∈ acc ∨ (x ≠ "" ∧ pstrip x = x) := by
  intro l
  induction l with
  | nil => intro acc x h; exact Or.inl h
  | cons r t ih =>
    intro acc x h
    rcases ih _ x h with hacc | hgood
    · rcases mem_addName hacc with h1 | h2
      · exact Or.inl h1
      · refine Or.inr ⟨h2.2, ?_⟩
        rw [h2.1, pstrip_idem]
    · exact Or.inr hgood

theorem extract_nodup (d : Doc) : (_extract_donor_names d).Nodup := by
  rw [extract_eq_scan]
  exact foldl_addName_nodup _ _ List.nodup_nil

theorem extract_mem_ok (d : Doc) :
    ∀ n ∈ _extract_donor_names d, n ≠ "" ∧ pstrip n = n := by
  intro n hn
  rw [extract_eq_scan] at hn
  rcases mem_foldl_addName _ _ _ hn with habs | h
  · exact absurd habs (List.not_mem_nil n)
  · exact h

/-! ## Order-preserving dedup folds -/

/-- Dedup loop of `scrape_givecampus_recent_donors` (src/donor/routes.py:214-220):
keep first occurrences, no emptiness check. -/
def dedupKeep (l : List String) : List String :=
  l.foldl (fun acc n => if n ∉ acc then acc ++ [n] else acc) []

/-- Dedup loop of `_load_local_donors` (src/donor/routes.py:121-127):
keep first occurrences of non-empty names. -/
def dedupKeepNonempty (l : List String) : List String :=
  l.foldl (fun acc n => if n ≠ "" ∧ n ∉ acc then acc ++ [n] else acc) []

theorem dedupKeep_aux :
    ∀ (l acc : List String), (acc ++ l).Nodup →
      l.foldl (fun acc n => if n ∉ acc then acc ++ [n] else acc) acc = acc ++ l := by
  intro l
  induction l with
  | nil => intro acc _; simp
  | cons n t ih =>
    intro acc h
    have hn : n ∉ acc := by
      intro hmem
      have := (List.nodup_append.mp h).2.2
      exact this hmem (List.mem_cons_self n t)
    rw [List.foldl_cons, if_pos hn]
    have h2 : ((acc ++ [n]) ++ t).Nodup := by
      rw [List.append_assoc, List.singleton_append]
      exact h
    rw [ih _ h2, List.append_assoc, List.singleton_append]

/-- On an already deduplicated list the dedup loop is the identity. -/
theorem dedupKeep_eq_self {l : List String} (h : l.Nodup) : dedupKeep l = l := by
  have := dedupKeep_aux l [] (by simpa using h)
  simpa [dedupKeep] using this

theorem mem_dedupKeep_aux :
    ∀ (l acc : List String) (x : String),
      x ∈ l.foldl (fun acc n => if n ∉ acc then acc ++ [n] else acc) acc →
      x ∈ acc ∨ x ∈ l := by
  intro l
  induction l with
  | nil => intro acc x h; exact Or.inl h
  | cons n t ih =>
    intro acc x h
    rw [List.foldl_cons] at h
    split at h
    · rcases ih _ x h with hacc | ht
      · rcases List.mem_append.mp hacc with h1 | h2
        · exact Or.inl h1
        · exact Or.inr (List.mem_singleton.mp h2 ▸ List.mem_cons_self n t)
      · exact Or.inr (List.mem_cons_of_mem n ht)
    · rcases ih _ x h with hacc | ht
      · exact Or.inl hacc
      · exact Or.inr (List.mem_cons_of_mem n ht)

theorem mem_dedupKeep {l : List String} {x : String} (h : x ∈ dedupKeep l) : x ∈ l := by
  rcases mem_dedupKeep_aux l [] x h with habs | hl
  · exact absurd habs (List.not_mem_nil x)
  · exact hl

theorem mem_dedupKeepNonempty_aux :
    ∀ (l acc : List String) (x : String),
      x ∈ l.foldl (fun acc n => if n ≠ "" ∧ n ∉ acc then acc ++ [n] else acc) acc →
      x ∈ acc ∨ (x ∈ l ∧ x ≠ "") := by
  intro l
  induction l with
  | nil => intro acc x h; exact Or.inl h
  | cons n t ih =>
    intro acc x h
    rw [List.foldl_cons] at h
    split at h
    · next hcond =>
      rcases ih _ x h with hacc | ht
      · rcases List.mem_append.mp hacc with h1 | h2
        · exact Or.inl h1
        · have hx := List.mem_singleton.mp h2
          exact Or.inr ⟨hx ▸ List.mem_cons_self n t, hx ▸ hcond.1⟩
      · exact Or.inr ⟨List.mem_cons_of_mem n ht.1, ht.2⟩
    · rcases ih _ x h with hacc | ht
      · exact Or.inl hacc
      · exact Or.inr ⟨List.mem_cons_of_mem n ht.1, ht.2⟩

theorem mem_dedupKeepNonempty {l : List String} {x : String}
    (h : x ∈ dedupKeepNonempty l) : x ∈ l ∧ x ≠ "" := by
  rcases mem_dedupKeepNonempty_aux l [] x h with habs | hl
  · exact absurd habs (List.not_mem_nil x)
  · exact hl

/-! ## Campaign-id discovery and the secondary URL -/

/-- Try to drop the literal `lit` from the head of `cs`. -/
def dropLit : List Char → List Char → Option (List Char)
  | [], cs => some cs
  | _ :: _, [] => none
  | p :: ps, c :: cs => if c = p then dropLit ps cs else none

/-- Match of the pattern `myModal(\d+)_all` anchored at the start of `cs`,
returning the digit group. -/
def myModalAt (cs : List Char) : Option String :=
  match dropLit "myModal".data cs with
  | none => none
  | some rest =>
    if rest.takeWhile Char.isDigit = [] then none
    else
      match dropLit "_all".data (rest.dropWhile Char.isDigit) with
      | some _ => some ⟨rest.takeWhile Char.isDigit⟩
      | none => none

/-- Match of `/campaigns/(\d+)/campaign_donors\.html` anchored at the start
of `cs`, returning the digit group. -/
def campaignHrefAt (cs : List Char) : Option String :=
  match dropLit "/campaigns/".data cs with
  | none => none
  | some rest =>
    if rest.takeWhile Char.isDigit = [] then none
    else
      match dropLit "/campaign_donors.html".data (rest.dropWhile Char.isDigit) with
      | some _ => some ⟨rest.takeWhile Char.isDigit⟩
      | none => none

/-- Model of `re.search`: try the anchored match at each position, leftmost
first. -/
def searchFirst (f : List Char → Option String) : List Char → Option String
  | [] => f []
  | c :: cs =>
    match f (c :: cs) with
    | some r => some r
    | none => searchFirst f cs

/-- `re.search(r"myModal(\d+)_all", s)` returning group 1 (greedy `\d+`
followed by the literal `_all` admits no other match at a given start). -/
def matchMyModal (s : String) : Option String :=
  searchFirst myModalAt s.data

/-- `re.search(r"/campaigns/(\d+)/campaign_donors\.html", s)` returning
group 1. -/
def matchCampaignHref (s : String) : Option String :=
  searchFirst campaignHrefAt s.data

/-- Embedding of `_find_campaign_id` (src/donor/routes.py:172-184): first
element id matching the modal pattern wins; otherwise the first anchor href
matching the campaign-donors path.  (An element found by the id pattern
always has a non-empty id and re-matching it always succeeds, so the two
guards of the source collapse.) -/
def find_campaign_id (d : Doc) : Option String :=
  match d.ids.find? (fun i => (matchMyModal i).isSome) with
  | some i => matchMyModal i
  | none => d.hrefs.findSome? matchCampaignHref

/-- The modal URL template of src/donor/routes.py:204: a fixed host,
independent of the primary URL. -/
def modalUrl (cid : String) : String :=
  "https://give.njit.edu/campaigns/" ++ cid ++ "/campaign_donors.html?show=all"

/-- The secondary URL the fetcher requests, when a campaign id is found. -/
def usedModalUrl (d : Doc) : Option String :=
  (find_campaign_id d).map modalUrl

/-! ## Remote fetcher -/

/-- Embedding of `scrape_givecampus_recent_donors` (src/donor/routes.py:187-222)
after the primary page has been fetched and parsed into `d`.
`fetchSecondary url = none` models any exception raised while fetching or
parsing the secondary page (swallowed by the bare `except`); cache writes
are best-effort side effects with no influence on the result and are not
modelled.  The final dedup keeps first occurrences, and every returned
tuple pairs a name with a `None` amount. -/
def scrape_givecampus_recent_donors (fetchSecondary : String → Option Doc) (d : Doc) :
    List (String × Option String) :=
  let donors := _extract_donor_names d
  let donors :=
    match find_campaign_id d with
    | some cid =>
      match fetchSecondary (modalUrl cid) with
      | some modalSoup => donors ++ _extract_donor_names modalSoup
      | none => donors
    | none => donors
  (dedupKeep donors).map (fun name => (name, (none : Option String)))

/-- Names contributed by the secondary ("all donors") page: empty when no
campaign id is found or the secondary fetch fails. -/
def secondaryNames (fetchSecondary : String → Option Doc) (d : Doc) : List String :=
  match find_campaign_id d with
  | some cid =>
    match fetchSecondary (modalUrl cid) with
    | some modalSoup => _extract_donor_names modalSoup
    | none => []
  | none => []

theorem scrape_gc_eq (fetchSecondary : String → Option Doc) (d : Doc) :
    scrape_givecampus_recent_donors fetchSecondary d
      = (dedupKeep (_extract_donor_names d ++ secondaryNames fetchSecondary d)).map
          (fun name => (name, (none : Option String))) := by
  unfold scrape_givecampus_recent_donors secondaryNames
  cases hcid : find_campaign_id d with
  | none => simp
  | some cid =>
    cases hf : fetchSecondary (modalUrl cid) with
    | none => simp [hf]
    | some modalSoup => simp [hf]

/-! ## Local fallback loader -/

/-- State of a fallback candidate file: absent, present but failing to read
or parse (the swallowed exception of src/donor/routes.py:119), or readable
with parsed content `d`. -/
inductive FileState
  | missing
  | unreadable
  | readable (d : Doc)

/-- Embedding of `_load_local_donors` (src/donor/routes.py:104-128): walk the
candidate list in order, skipping falsy entries (`None` or `""`), missing
files and files whose read or parse raises, extending the accumulator with
the names extracted from every readable candidate; finally dedup the
combined list keeping first occurrences of non-empty names. -/
def _load_local_donors (fs : String → FileState) (file_candidates : List (Option String)) :
    List String :=
  let collected := file_candidates.foldl
    (fun acc c =>
      match c with
      | none => acc
      | some p =>
        if p = "" then acc
        else
          match fs p with
          | .missing => acc
          | .unreadable => acc
          | .readable d => acc ++ _extract_donor_names d)
    []
  dedupKeepNonempty collected

/-- The parsed documents of the readable, non-falsy candidates, in candidate
order. -/
def readableDocs (fs : String → FileState) (cands : List (Option String)) : List Doc :=
  cands.filterMap
    (fun c =>
      match c with
      | none => none
      | some p =>
        if p = "" then none
        else
          match fs p with
          | .readable d => some d
          | _ => none)

theorem loader_collected (fs : String → FileState) :
    ∀ (cands : List (Option String)) (acc : List String),
      cands.foldl
        (fun acc c =>
          match c with
          | none => acc
          | some p =>
            if p = "" then acc
            else
              match fs p with
              | .missing => acc
              | .unreadable => acc
              | .readable d => acc ++ _extract_donor_names d)
        acc
        = acc ++ ((readableDocs fs cands).map _extract_donor_names).flatten := by
  intro cands
  induction cands with
  | nil => intro acc; simp [readableDocs]
  | cons c t ih =>
    intro acc
    cases c with
    | none => simp [List.foldl_cons, readableDocs, List.filterMap_cons, ih]
    | some p =>
      by_cases hp : p = ""
      · simp [List.foldl_cons, hp, readableDocs, List.filterMap_cons, ih]
      · cases hfs : fs p with
        | missing =>
          simp [List.foldl_cons, hp, hfs, readableDocs, List.filterMap_cons, ih]
        | unreadable =>
          simp [List.foldl_cons, hp, hfs, readableDocs, List.filterMap_cons, ih]
        | readable d =>
          rw [List.foldl_cons]
          simp only [hp, if_neg (by exact hp), hfs]
          rw [ih]
          simp [readableDocs, List.filterMap_cons, hp, hfs]

theorem load_local_donors_eq (fs : String → FileState) (cands : List (Option String)) :
    _load_local_donors fs cands
      = dedupKeepNonempty (((readableDocs fs cands).map _extract_donor_names).flatten) := by
  unfold _load_local_donors
  rw [loader_collected]
  simp

/-! ## Sync orchestrator (`scrape_donors` route) and the destination store -/

/-- The destination `donors` table (src/db.py:116-124), one `(name, amount)`
row per record; the autoincrement id plays no role in the claims. -/
abbrev DB := List (String × ℚ)

/-- Outcome of the sync entry point: the 400 "no donor data" response, the
success response carrying `donors_count`, or a propagated exception after
the transaction rolled back. -/
inductive SyncResult
  | noData
  | success (count : Nat)
  | error
deriving DecidableEq

/-- The insert loop of `scrape_donors` (src/donor/routes.py:485-490), run
inside the `get_db` transaction after `DELETE FROM donors`: skip tuples
with a falsy name, insert the rest with normalized amount.  `failAt = some k`
injects a failure at the k-th attempted insert (0-based), modelling a
mid-transaction exception; `none` means every insert succeeds. -/
def insertLoop : List (String × Option String) → Option Nat → DB → Except Unit DB
  | [], _, pending => .ok pending
  | (name, amount) :: rest, failAt, pending =>
    if name = "" then insertLoop rest failAt pending
    else
      match failAt with
      | some 0 => .error ()
      | some (k + 1) =>
        insertLoop rest (some k) (pending ++ [(name, parse_amount_to_number amount)])
      | none => insertLoop rest none (pending ++ [(name, parse_amount_to_number amount)])

/-- The records the replace inserts: one per non-empty-named tuple, amount
normalized. -/
def insertedRecords (donors : List (String × Option String)) : DB :=
  donors.filterMap
    (fun p => if p.1 = "" then none else some (p.1, parse_amount_to_number p.2))

/-- Number of tuples with a non-empty name. -/
def nonemptyCount (donors : List (String × Option String)) : Nat :=
  (donors.filter (fun p => p.1 ≠ "")).length

/-- The fallback candidate list of src/donor/routes.py:468-475: four
environment variables followed by two hardcoded repository files. -/
def localCandidates (env : String → Option String) : List (Option String) :=
  [env "DONOR_LOCAL_MODAL_FILE",
   env "DONOR_LOCAL_FILE",
   env "DONOR_CACHE_MODAL_FILE",
   env "DONOR_CACHE_MAIN_FILE",
   some "campaign_donors_72810_all.html",
   some "honors-winter-gala.html"]

/-- `donor_website = row[0] if row and row[0] else None`
(src/donor/routes.py:455): a missing settings row or a falsy value disables
the remote fetch. -/
def donorWebsiteOf (settingsWebsite : Option String) : Option String :=
  match settingsWebsite with
  | some s => if s = "" then none else some s
  | none => none

/-- The remote part of the result set (src/donor/routes.py:459-464): when a
donor website is configured, scrape it, downgrading any raised exception
(`primaryFetch = none`) to zero results. -/
def fromWeb (settingsWebsite : Option String) (primaryFetch : Option Doc)
    (fetchSecondary : String → Option Doc) : List (String × Option String) :=
  match donorWebsiteOf settingsWebsite with
  | some _ =>
    match primaryFetch with
    | some doc => scrape_givecampus_recent_donors fetchSecondary doc
    | none => []
  | none => []

/-- The combined result set of `scrape_donors` (src/donor/routes.py:455-477):
the remote scrape, then the local fallback when the remote result is
empty. -/
def combinedDonors (env : String → Option String) (fs : String → FileState)
    (settingsWebsite : Option String) (primaryFetch : Option Doc)
    (fetchSecondary : String → Option Doc) : List (String × Option String) :=
  if fromWeb settingsWebsite primaryFetch fetchSecondary = [] then
    fromWeb settingsWebsite primaryFetch fetchSecondary
      ++ (_load_local_donors fs (localCandidates env)).map
        (fun name => (name, (none : Option String)))
  else fromWeb settingsWebsite primaryFetch fetchSecondary

/-- Embedding of the `scrape_donors` route (src/donor/routes.py:443-492).
When the combined result set is empty it answers 400 without opening the
insert transaction; otherwise it runs delete-all plus the insert loop inside
one `get_db` transaction (src/db.py:38-48): commit on success (the pending
state `insertLoop` built from the emptied table becomes the committed
database), rollback on an exception (the committed database keeps its prior
value and the error propagates).  On success it reports
`donors_count = len(donors_list)`. -/
def scrape_donors (env : String → Option String) (fs : String → FileState)
    (settingsWebsite : Option String) (primaryFetch : Option Doc)
    (fetchSecondary : String → Option Doc) (db : DB) (failAt : Option Nat) :
    SyncResult × DB :=
  let donorsList := combinedDonors env fs settingsWebsite primaryFetch fetchSecondary
  if donorsList = [] then (.noData, db)
  else
    match insertLoop donorsList failAt [] with
    | .ok pending => (.success donorsList.length, pending)
    | .error _ => (.error, db)

/-! ## Scheduler interval (src/main.py:39-51) -/

/-- Embedding of the interval computation of `schedule_scrape`
(src/main.py:40-49): parse `SCRAPE_INTERVAL_MINUTES` (default `"15"`) as a
float, fall back to 15.0 on a parse error or a non-positive value, then take
`max(ceil(minutes * 60), 30)` seconds. -/
def schedule_scrape_interval_seconds (envRaw : Option String) : ℤ :=
  let m0 : ℚ :=
    match pyFloat? (envRaw.getD "15") with
    | some v => v
    | none => 15
  let m : ℚ := if m0 ≤ 0 then 15 else m0
  max ⌈m * 60⌉ 30

/-! ## Support lemmas about the insert transaction and the result set -/

theorem insertLoop_ok_eq :
    ∀ (donors : List (String × Option String)) (failAt : Option Nat) (pending out : DB),
      insertLoop donors failAt pending = .ok out → out = pending ++ insertedRecords donors := by
  intro donors
  induction donors with
  | nil =>
    intro failAt pending out h
    cases h
    simp [insertedRecords]
  | cons p rest ih =>
    intro failAt pending out h
    obtain ⟨name, amount⟩ := p
    simp only [insertLoop] at h
    by_cases hname : name = ""
    · rw [if_pos hname] at h
      rw [ih _ _ _ h]
      simp [insertedRecords, List.filterMap_cons, hname]
    · rw [if_neg hname] at h
      cases failAt with
      | none =>
        rw [ih _ _ _ h, List.append_assoc]
        simp [insertedRecords, List.filterMap_cons, hname]
      | some k =>
        cases k with
        | zero => exact absurd h (by simp)
        | succ k =>
          rw [ih _ _ _ h, List.append_assoc]
          simp [insertedRecords, List.filterMap_cons, hname]

theorem insertLoop_fail :
    ∀ (donors : List (String × Option String)) (k : Nat) (pending : DB),
      k < nonemptyCount donors → insertLoop donors (some k) pending = .error () := by
  intro donors
  induction donors with
  | nil =>
    intro k pending hk
    simp [nonemptyCount] at hk
  | cons p rest ih =>
    intro k pending hk
    obtain ⟨name, amount⟩ := p
    simp only [insertLoop]
    by_cases hname : name = ""
    · rw [if_pos hname]
      refine ih k pending ?_
      simpa [nonemptyCount, hname] using hk
    · rw [if_neg hname]
      cases k with
      | zero => rfl
      | succ k =>
        refine ih k _ ?_
        have : nonemptyCount ((name, amount) :: rest) = nonemptyCount rest + 1 := by
          simp [nonemptyCount, hname]
        omega

theorem insertedRecords_length :
    ∀ (donors : List (String × Option String)), (∀ p ∈ donors, p.1 ≠ "") →
      (insertedRecords donors).length = donors.length := by
  intro donors
  induction donors with
  | nil => intro _; rfl
  | cons p rest ih =>
    intro h
    have hp : p.1 ≠ "" := h p (List.mem_cons_self p rest)
    rw [insertedRecords, List.filterMap_cons]
    simp only [if_neg hp]
    rw [List.length_cons, ← insertedRecords]
    rw [ih (fun q hq => h q (List.mem_cons_of_mem p hq))]
    rfl

theorem scrape_gc_mem {fetchSecondary : String → Option Doc} {d : Doc}
    {p : String × Option String}
    (hp : p ∈ scrape_givecampus_recent_donors fetchSecondary d) :
    p.1 ≠ "" ∧ p.2 = none := by
  rw [scrape_gc_eq] at hp
  rcases List.mem_map.mp hp with ⟨n, hn, hpn⟩
  have hmem := mem_dedupKeep hn
  have hne : n ≠ "" := by
    rcases List.mem_append.mp hmem with h1 | h2
    · exact (extract_mem_ok d n h1).1
    · unfold secondaryNames at h2
      split at h2
      · split at h2
        · next modalSoup _ => exact (extract_mem_ok modalSoup n h2).1
        · exact absurd h2 (List.not_mem_nil n)
      · exact absurd h2 (List.not_mem_nil n)
  rw [← hpn]
  exact ⟨hne, rfl⟩

theorem load_local_donors_mem {fs : String → FileState} {cands : List (Option String)}
    {n : String} (hn : n ∈ _load_local_donors fs cands) : n ≠ "" := by
  unfold _load_local_donors at hn
  exact (mem_dedupKeepNonempty hn).2

theorem fromWeb_mem {settingsWebsite : Option String} {primaryFetch : Option Doc}
    {fetchSecondary : String → Option Doc} {p : String × Option String}
    (hp : p ∈ fromWeb settingsWebsite primaryFetch fetchSecondary) : p.1 ≠ "" := by
  unfold fromWeb at hp
  split at hp
  · split at hp
    · exact (scrape_gc_mem hp).1
    · exact absurd hp (List.not_mem_nil p)
  · exact absurd hp (List.not_mem_nil p)

theorem combinedDonors_mem {env : String → Option String} {fs : String → FileState}
    {settingsWebsite : Option String} {primaryFetch : Option Doc}
    {fetchSecondary : String → Option Doc} {p : String × Option String}
    (hp : p ∈ combinedDonors env fs settingsWebsite primaryFetch fetchSecondary) :
    p.1 ≠ "" := by
  unfold combinedDonors at hp
  split at hp
  · rcases List.mem_append.mp hp with h1 | h2
    · exact fromWeb_mem h1
    · rcases List.mem_map.mp h2 with ⟨n, hn, hpn⟩
      rw [← hpn]
      exact load_local_donors_mem hn
  · exact fromWeb_mem hp

/-! ## Document-order bookkeeping for the extractor order claim -/

/-- Least element of a list of positions. -/
def minPos? (l : List Nat) : Option Nat :=
  l.foldl
    (fun acc p =>
      match acc with
      | none => some p
      | some q => some (min p q))
    none

/-- Document position of the first occurrence of `name` among all
selector-matched nodes whose stripped text equals `name`. -/
def firstOccPos (d : Doc) (name : String) : Option Nat :=
  minPos?
    ((((selectors.map
      (fun sel => (d.select sel).filter (fun n => pstrip n.text = name))).flatten).map
        Node.pos))

/-- The order property asserted by the specification: output names sorted by
the document position of their first occurrence. -/
def firstOccOrdered (d : Doc) : Prop :=
  (_extract_donor_names d).Pairwise
    (fun a b => (firstOccPos d a).getD 0 ≤ (firstOccPos d b).getD 0)

/-- Well-formedness of the abstract document: every selector reports its
matches in strictly increasing document order. -/
def DocWF (d : Doc) : Prop :=
  ∀ sel, ((d.select sel).map Node.pos).Chain' (· < ·)

/-! ## Concrete example documents and environments -/

/-- A document where the selector listed second matches a node late in the
document while the selector listed fifth matches a node early in the
document. -/
def exDoc3 : Doc :=
  { select := fun s =>
      if s = ".donor-listing .text-xl" then [⟨5, "B"⟩]
      else if s = ".donor-name" then [⟨1, "A"⟩]
      else [],
    rows := [], ids := [], hrefs := [] }

/-- A document with two donor names. -/
def docXY : Doc :=
  { select := fun s => if s = ".donor-name" then [⟨0, "X"⟩, ⟨1, "Y"⟩] else [],
    rows := [], ids := [], hrefs := [] }

/-- A document with five donor names. -/
def doc5 : Doc :=
  { select := fun s =>
      if s = ".donor-name" then
        [⟨0, "N1"⟩, ⟨1, "N2"⟩, ⟨2, "N3"⟩, ⟨3, "N4"⟩, ⟨4, "N5"⟩]
      else [],
    rows := [], ids := [], hrefs := [] }

/-- A document whose single matched node carries surrounding whitespace. -/
def docTrim : Doc :=
  { select := fun s => if s = ".donor-name" then [⟨0, " Jane Doe "⟩] else [],
    rows := [], ids := [], hrefs := [] }

/-- A document with one donor name and a modal id carrying campaign id 501. -/
def exDoc4 : Doc :=
  { select := fun s => if s = ".donor-name" then [⟨0, "A"⟩] else [],
    rows := [], ids := ["myModal501_all"], hrefs := [] }

/-- A document whose campaign id 777 is only discoverable through an anchor
href. -/
def exDocHref : Doc :=
  { select := fun _ => [], rows := [], ids := [],
    hrefs := ["/campaigns/777/campaign_donors.html"] }

/-- Environment with no variables set. -/
def envNone : String → Option String := fun _ => none

/-- Filesystem with no files. -/
def fsNone : String → FileState := fun _ => .missing

/-- Secondary fetch that always raises. -/
def sfNone : String → Option Doc := fun _ => none

/-- Filesystem for the fallback-ordering scenario: candidate `A.html` is
missing, candidate `B.html` holds the two names. -/
def exFsAB : String → FileState :=
  fun p => if p = "B.html" then .readable docXY else .missing

/-- Filesystem where the repository-cached modal file holds two names. -/
def fsXY : String → FileState :=
  fun p => if p = "campaign_donors_72810_all.html" then .readable docXY else .missing

/-- Filesystem where the repository-cached modal file holds five names. -/
def fs5 : String → FileState :=
  fun p => if p = "campaign_donors_72810_all.html" then .readable doc5 else .missing

/-- Two sequential invocations of the extractor on the same document; the
source function keeps no state outside its local `names`/`seen`, so each
call starts fresh. -/
def extractTwice (d : Doc) : List String × List String :=
  (_extract_donor_names d, _extract_donor_names d)

/-! ## Claim theorems -/

/-- C2, counterexample: the direct trimmed-float variant `_parse_amount`
returns `-5.0` on the input `"-5"`, a negative value, so the two variants do
not both return a non-negative float on every string. -/
theorem claim_C2_counterexample :
    _parse_amount (some "-5") = -5 ∧ _parse_amount (some "-5") < 0 := by
  constructor
  · decide
  · decide

/-- C2, amended: both variants never raise (they are total functions) and
return `0.0` on `None` and on input their own parse step rejects; the
digits-and-period stripper `parse_amount_to_number` moreover always returns
a non-negative value, while the direct trimmed-float parser `_parse_amount`
returns the parsed value, which can be negative. -/
theorem claim_C2_amended :
    (∀ a : Option String, 0 ≤ parse_amount_to_number a) ∧
    parse_amount_to_number none = 0 ∧
    (∀ s : String, pyFloat? (cleanAmount s) = none → parse_amount_to_number (some s) = 0) ∧
    _parse_amount none = 0 ∧
    (∀ r : String, pyFloat? (pstrip r) = none → _parse_amount (some r) = 0) := by
  refine ⟨parse_amount_to_number_nonneg, rfl, ?_, rfl, ?_⟩
  · intro s h
    simp [parse_amount_to_number, h]
  · intro r h
    by_cases hc : pstrip r = "" ∨ pstrip r = "None"
    · simp [_parse_amount, hc]
    · simp [_parse_amount, hc, h]

/-- C2, witness for the amended claim at the unparsable input `"N/A"`: both
variants return `0`. -/
theorem claim_C2_witness :
    parse_amount_to_number (some "N/A") = 0 ∧ _parse_amount (some "N/A") = 0 :=
  ⟨claim_C2_amended.2.2.1 "N/A" (by decide),
   claim_C2_amended.2.2.2.2 "N/A" (by decide)⟩

/-- C3, counterexample: on a well-formed document where the selector listed
second matches only the node `B` at document position 5 and the selector
listed fifth matches only the node `A` at document position 1, the extractor
returns `["B", "A"]`, which is not first-occurrence document order. -/
theorem claim_C3_counterexample :
    _extract_donor_names exDoc3 = ["B", "A"] ∧
    firstOccPos exDoc3 "A" = some 1 ∧
    firstOccPos exDoc3 "B" = some 5 ∧
    ¬ firstOccOrdered exDoc3 ∧
    DocWF exDoc3 := by
  refine ⟨by decide, by decide, by decide, ?_, ?_⟩
  · intro hord
    unfold firstOccOrdered at hord
    have he : _extract_donor_names exDoc3 = ["B", "A"] := by decide
    rw [he, List.pairwise_cons] at hord
    have h1 := hord.1 "A" (List.mem_singleton.mpr rfl)
    revert h1
    decide
  · intro sel
    show ((if sel = ".donor-listing .text-xl" then [(⟨5, "B"⟩ : Node)]
        else if sel = ".donor-name" then [⟨1, "A"⟩] else []).map Node.pos).Chain' (· < ·)
    split
    · simp
    · split
      · simp
      · simp

/-- C3, amended: the extractor returns unique, non-empty, whitespace-trimmed
names, each repeated name appearing exactly once at its first occurrence in
the extractor's scan order (selectors tried in their listed order, each
selector's matches in document order, then the all-donors table rows); the
output order is this first-seen scan order, which restricted to a single
selector is document order but across selectors need not be. -/
theorem claim_C3_amended (d : Doc) :
    _extract_donor_names d = dedupeStrip (scanTexts d) ∧
    (_extract_donor_names d).Nodup ∧
    ∀ n ∈ _extract_donor_names d, n ≠ "" ∧ pstrip n = n :=
  ⟨extract_eq_scan d, extract_nodup d, extract_mem_ok d⟩

/-- C3, witness for the amended claim: the name extracted from a node whose
text carries surrounding whitespace is non-empty and trimmed. -/
theorem claim_C3_witness :
    "Jane Doe" ≠ "" ∧ pstrip "Jane Doe" = "Jane Doe" :=
  (claim_C3_amended docTrim).2.2 "Jane Doe" (by decide)

/-- C4: if a campaign id is found but the secondary fetch raises, the error
is swallowed and the fetcher returns exactly the primary-page names; and in
every case the output is the first-occurrence dedup of primary names
followed by secondary names, each paired with a `None` amount. -/
theorem claim_C4_secondary_error_swallowed :
    (∀ (sf : String → Option Doc) (d : Doc) (cid : String),
      find_campaign_id d = some cid → sf (modalUrl cid) = none →
        scrape_givecampus_recent_donors sf d
          = (_extract_donor_names d).map (fun name => (name, (none : Option String)))) ∧
    (∀ (sf : String → Option Doc) (d : Doc),
      scrape_givecampus_recent_donors sf d
        = (dedupKeep (_extract_donor_names d ++ secondaryNames sf d)).map
            (fun name => (name, (none : Option String))) ∧
      ∀ p ∈ scrape_givecampus_recent_donors sf d, p.2 = none) := by
  constructor
  · intro sf d cid hcid hf
    rw [scrape_gc_eq]
    have hsec : secondaryNames sf d = [] := by
      simp only [secondaryNames, hcid, hf]
    rw [hsec, List.append_nil, dedupKeep_eq_self (extract_nodup d)]
  · intro sf d
    exact ⟨scrape_gc_eq sf d, fun p hp => (scrape_gc_mem hp).2⟩

/-- C4, witness: a document with campaign id 501 whose secondary fetch
raises still yields the primary-page names. -/
theorem claim_C4_witness :
    scrape_givecampus_recent_donors sfNone exDoc4
      = (_extract_donor_names exDoc4).map (fun name => (name, (none : Option String))) :=
  claim_C4_secondary_error_swallowed.1 sfNone exDoc4 "501" (by decide) rfl

/-- C6: the local fallback loader accumulates the extractions of every
readable, non-falsy candidate (missing or unreadable candidates are skipped
without error) and dedups the combined list preserving first-seen order; in
particular candidates `[A (missing), B (names X, Y)]` yield `["X", "Y"]`. -/
theorem claim_C6_fallback_accumulates :
    (∀ (fs : String → FileState) (cands : List (Option String)),
      _load_local_donors fs cands
        = dedupKeepNonempty (((readableDocs fs cands).map _extract_donor_names).flatten)) ∧
    _load_local_donors exFsAB [some "A.html", some "B.html"] = ["X", "Y"] := by
  constructor
  · exact load_local_donors_eq
  · decide

/-- C8: the extractor is idempotent and stateless; two sequential runs on
the same document return identical output. -/
theorem claim_C8_extract_idempotent (d : Doc) :
    extractTwice d = (_extract_donor_names d, _extract_donor_names d) ∧
    (extractTwice d).1 = (extractTwice d).2 :=
  ⟨rfl, rfl⟩

/-- C10: whenever a campaign id is discovered (modal id first, anchor href
as fallback), the secondary URL is built from the fixed-host template
`https://give.njit.edu/campaigns/{id}/campaign_donors.html?show=all`, and
the fetcher consults the secondary fetch only at that URL, regardless of
the primary URL. -/
theorem claim_C10_fixed_host (d : Doc) (cid : String)
    (h : find_campaign_id d = some cid) :
    usedModalUrl d
        = some ("https://give.njit.edu/campaigns/" ++ cid ++ "/campaign_donors.html?show=all") ∧
    (∀ sf sf' : String → Option Doc, sf (modalUrl cid) = sf' (modalUrl cid) →
      scrape_givecampus_recent_donors sf d = scrape_givecampus_recent_donors sf' d) := by
  constructor
  · unfold usedModalUrl
    rw [h]
    rfl
  · intro sf sf' hsf
    simp only [scrape_givecampus_recent_donors, h, hsf]

/-- C10, witness: a campaign id discovered through an anchor href yields the
fixed-host secondary URL. -/
theorem claim_C10_witness :
    usedModalUrl exDocHref
      = some "https://give.njit.edu/campaigns/777/campaign_donors.html?show=all" :=
  ((claim_C10_fixed_host exDocHref "777" (by decide)).1).trans (by decide)

/-- C1: the destination replace is all-or-nothing.  A failure injected at
any insert position (after the delete, before the inserts complete) makes
the transaction roll back, leaving the prior record set as the committed
database; on success the committed database is exactly one normalized
record per non-empty-named result tuple, in order.  Readers only ever see
the committed database in this embedding, so no partial donor list is
observable. -/
theorem claim_C1_replace_all_or_nothing :
    (∀ (env : String → Option String) (fs : String → FileState)
        (sw : Option String) (pf : Option Doc) (sf : String → Option Doc)
        (db : DB) (k : Nat),
      k < nonemptyCount (combinedDonors env fs sw pf sf) →
        scrape_donors env fs sw pf sf db (some k) = (.error, db)) ∧
    (∀ (env : String → Option String) (fs : String → FileState)
        (sw : Option String) (pf : Option Doc) (sf : String → Option Doc)
        (db : DB) (failAt : Option Nat) (c : Nat) (db' : DB),
      scrape_donors env fs sw pf sf db failAt = (.success c, db') →
        db' = insertedRecords (combinedDonors env fs sw pf sf)) := by
  constructor
  · intro env fs sw pf sf db k hk
    have hne : combinedDonors env fs sw pf sf ≠ [] := by
      intro h0
      rw [h0] at hk
      simp [nonemptyCount] at hk
    simp only [scrape_donors]
    rw [if_neg hne, insertLoop_fail _ k [] hk]
  · intro env fs sw pf sf db failAt c db' h
    simp only [scrape_donors] at h
    split at h
    · simp at h
    · split at h
      · next pending hloop =>
        rw [Prod.mk.injEq] at h
        rw [← h.2, insertLoop_ok_eq _ _ _ _ hloop, List.nil_append]
      · simp at h

/-- C1, witness: with a prior record and a two-name result set, a failure
injected at the second insert leaves the prior record set intact. -/
theorem claim_C1_witness :
    scrape_donors envNone fsXY none none sfNone [("Old", 10)] (some 1)
      = (.error, [("Old", 10)]) :=
  claim_C1_replace_all_or_nothing.1 envNone fsXY none none sfNone
    [("Old", 10)] 1 (by decide)

/-- C5: whenever the combined result set from remote fetch and local
fallback is empty, the sync entry point answers with the distinct no-data
status and the destination store is left unchanged. -/
theorem claim_C5_no_data_no_write
    (env : String → Option String) (fs : String → FileState)
    (sw : Option String) (pf : Option Doc) (sf : String → Option Doc)
    (db : DB) (failAt : Option Nat)
    (h : combinedDonors env fs sw pf sf = []) :
    scrape_donors env fs sw pf sf db failAt = (.noData, db) := by
  simp only [scrape_donors]
  rw [if_pos h]

/-- C5, witness: no configured source URL and no fallback files leave the
prior records in place and report no data. -/
theorem claim_C5_witness :
    scrape_donors envNone fsNone none none sfNone [("Old", 5)] none
      = (.noData, [("Old", 5)]) :=
  claim_C5_no_data_no_write envNone fsNone none none sfNone [("Old", 5)] none (by decide)

/-- C7: whenever the sync entry point reports success, the reported count
equals the number of records actually inserted into the destination store;
concretely, a fallback file with five names yields success with count 5 and
five records with amount `0`. -/
theorem claim_C7_success_count :
    (∀ (env : String → Option String) (fs : String → FileState)
        (sw : Option String) (pf : Option Doc) (sf : String → Option Doc)
        (db : DB) (failAt : Option Nat) (c : Nat) (db' : DB),
      scrape_donors env fs sw pf sf db failAt = (.success c, db') →
        c = db'.length) ∧
    scrape_donors envNone fs5 (some "https://example.org") none sfNone [("Old", 1)] none
      = (.success 5, [("N1", 0), ("N2", 0), ("N3", 0), ("N4", 0), ("N5", 0)]) := by
  constructor
  · intro env fs sw pf sf db failAt c db' h
    simp only [scrape_donors] at h
    split at h
    · simp at h
    · split at h
      · next pending hloop =>
        rw [Prod.mk.injEq, SyncResult.success.injEq] at h
        have hpend : pending = insertedRecords (combinedDonors env fs sw pf sf) := by
          rw [insertLoop_ok_eq _ _ _ _ hloop, List.nil_append]
        rw [← h.1, ← h.2, hpend,
          insertedRecords_length _ (fun p hp => combinedDonors_mem hp)]
      · simp at h
  · decide

/-- C7, witness: the general part applied to the five-name fallback
scenario. -/
theorem claim_C7_witness :
    (5 : Nat) = ([("N1", (0 : ℚ)), ("N2", 0), ("N3", 0), ("N4", 0), ("N5", 0)] : DB).length :=
  claim_C7_success_count.1 envNone fs5 (some "https://example.org") none sfNone
    [("Old", 1)] none 5 [("N1", 0), ("N2", 0), ("N3", 0), ("N4", 0), ("N5", 0)] (by decide)

/-- C9: the scheduler interval in seconds is always at least 30, and a
non-numeric or non-positive configured value falls back to the default 15
minutes, i.e. 900 seconds, before clamping. -/
theorem claim_C9_interval_floor :
    (∀ envRaw : Option String, 30 ≤ schedule_scrape_interval_seconds envRaw) ∧
    (∀ envRaw : Option String, pyFloat? (envRaw.getD "15") = none →
      schedule_scrape_interval_seconds envRaw = 900) ∧
    (∀ (envRaw : Option String) (v : ℚ), pyFloat? (envRaw.getD "15") = some v → v ≤ 0 →
      schedule_scrape_interval_seconds envRaw = 900) := by
  have hdefault : max (⌈(15 : ℚ) * 60⌉) 30 = 900 := by
    have h15 : (15 : ℚ) * 60 = ((900 : ℤ) : ℚ) := by norm_num
    rw [h15, Int.ceil_intCast]
    norm_num
  refine ⟨?_, ?_, ?_⟩
  · intro envRaw
    simp only [schedule_scrape_interval_seconds]
    exact le_max_right _ _
  · intro envRaw h
    simp only [schedule_scrape_interval_seconds, h]
    norm_num [hdefault]
  · intro envRaw v h hv
    simp only [schedule_scrape_interval_seconds, h]
    rw [if_pos hv]
    exact hdefault

/-- C9, witness: a non-numeric configured value yields the default 900
second interval. -/
theorem claim_C9_witness :
    schedule_scrape_interval_seconds (some "abc") = 900 :=
  claim_C9_interval_floor.2.1 (some "abc") (by decide)

end DonorWall
